import Mathlib

/-!
Verification development for the Trion runtime core (src/trion_runtime.c).

Each C function relevant to the frozen claims is shallowly embedded as an
executable Lean definition that mirrors the source's control flow and
arithmetic.  Machine integers are modelled as `Nat` with explicit
`% 2 ^ w` / `% 256` where the C code can overflow; fallible functions
return `Option` / `Except`; out-of-memory and null-pointer paths (which
the claims do not touch) are modelled away, as noted per definition.
-/

namespace Trion

/-! ## Base-12 codec (src/trion_runtime.c:462-749)

Bytes are big-endian unsigned magnitudes, modelled as `List Nat`
(each entry a byte value).  Strings are modelled through `String.data`
(a `List Char`), matching the null-terminated C strings.
-/

/-- `DG_DIGITS = "0123456789ab"` (line 462). -/
def DG_DIGITS : List Char := ['0','1','2','3','4','5','6','7','8','9','a','b']

/-- `DG_DIGITS[d]` for a digit value `d < 12`. -/
def digitChar (d : Nat) : Char := DG_DIGITS.getD d '0'

/-- Value of a big-endian byte vector, as read by the byte-wise long
division loop of `bytes_to_base12` (lines 530-542, 577-582). -/
def beBytesToNat (bs : List Nat) : Nat := bs.foldl (fun acc b => acc * 256 + b) 0

/-- Least-significant-first base-12 digits of `n`, produced exactly as the
repeated `n % 12` / `n / 12` loop does; fuel-structured (fuel `≥ n`
suffices) so concrete inputs reduce in the kernel. -/
def b12RevAux : Nat → Nat → List Nat
  | 0, _ => []
  | _ + 1, 0 => []
  | fuel + 1, n + 1 => (n + 1) % 12 :: b12RevAux fuel ((n + 1) / 12)

/-- LSB-first base-12 digit list of `n` (empty for `n = 0`). -/
def natToB12Rev (n : Nat) : List Nat := b12RevAux n n

/-- `bytes_to_base12` (lines 563-589): repeated division of the big-endian
magnitude by 12, remainders emitted LSB first into `rev`, then reversed
into the output.  Null/empty input and the all-zero magnitude both print
`"0"`.  Modelled with an adequate output buffer (the claims quantify over
the produced string, not over undersized buffers). -/
def bytes_to_base12_data (bytes : List Nat) : List Char :=
  let v := beBytesToNat bytes
  if v = 0 then ['0'] else ((natToB12Rev v).map digitChar).reverse

/-- `bytes_to_base12` as a `String` producer. -/
def bytes_to_base12 (bytes : List Nat) : String := String.mk (bytes_to_base12_data bytes)

/-- `bytes_to_base12_scaled` (lines 594-632): integer form first, then the
radix point.  `scale = 0` returns the integer form; when the integer form
has `totlen ≤ scale` digits the code computes `need = scale + 1 - totlen`
padding zeros and emits `"0."` followed by the padding and the digits;
otherwise the point is inserted `scale` digits from the right.  The C
negative-scale error path is outside this model (`scale : Nat`, matching
the claims' `s ≥ 0`). -/
def bytes_to_base12_scaled_data (bytes : List Nat) (scale : Nat) : List Char :=
  let tmp := bytes_to_base12_data bytes
  let totlen := tmp.length
  if scale = 0 then tmp
  else if totlen ≤ scale then
    '0' :: '.' :: (List.replicate (scale + 1 - totlen) '0' ++ tmp)
  else
    tmp.take (totlen - scale) ++ '.' :: tmp.drop (totlen - scale)

/-- `bytes_to_base12_scaled` as a `String` producer. -/
def bytes_to_base12_scaled (bytes : List Nat) (scale : Nat) : String :=
  String.mk (bytes_to_base12_scaled_data bytes scale)

/-- Digit value of one character (lines 495-497 / 706-708): `0`-`9`,
`a`/`A` = 10, `b`/`B` = 11, anything else invalid. -/
def b12DigitVal (c : Char) : Option Nat :=
  if '0' ≤ c ∧ c ≤ '9' then some (c.toNat - '0'.toNat)
  else if c = 'a' ∨ c = 'A' then some 10
  else if c = 'b' ∨ c = 'B' then some 11
  else none

/-- Characters silently skipped by both decoders (lines 498, 704, 716). -/
def isSkipChar (c : Char) : Bool := c = '_' || c = ' '

/-- Sign handling at position 0 (lines 491, 644). -/
def stripSign (cs : List Char) : List Char :=
  match cs with
  | [] => []
  | c :: rest => if c = '+' ∨ c = '-' then rest else c :: rest

/-- Whether the leading character is the `'-'` sign (lines 491, 644). -/
def isNegSign (cs : List Char) : Bool :=
  match cs with
  | [] => false
  | c :: _ => c == '-'

/-- One step of `bn_mul12_add` (lines 678-699) on the abstract state
`(value, bn_len)`.  The multiply loop leaves `raw % 256 ^ len` in the
buffer with carry `raw / 256 ^ len`.  When the carry is nonzero the code
grows the buffer, but its `memmove(ptr + 1, ptr, bn_len)` shifts from one
byte *before* the data (a zero), dropping the least-significant byte:
the stored value becomes `carry * 256 ^ len + (raw % 256 ^ len) / 256`. -/
def bnMul12Add : Nat × Nat → Nat → Nat × Nat
  | (v, len), d =>
    let raw := 12 * v + d
    if raw < 256 ^ len then (raw, len)
    else (raw / 256 ^ len * 256 ^ len + raw % 256 ^ len / 256, len + 1)

/-- The digit loops of `base12_to_bytes_with_scale` (lines 702-723):
skip `_`/space, reject non-digits (return `-2`), otherwise `bn_mul12_add`. -/
def parseB12Digits : List Char → Nat × Nat → Option (Nat × Nat)
  | [], st => some st
  | c :: rest, st =>
    if isSkipChar c then parseB12Digits rest st
    else match b12DigitVal c with
      | some d => parseB12Digits rest (bnMul12Add st d)
      | none => none

/-- The `len` big-endian bytes holding value `v` (the bn buffer contents). -/
def natToBeBytesLen (v : Nat) : Nat → List Nat
  | 0 => []
  | l + 1 => (v / 256 ^ l % 256) :: natToBeBytesLen v l

/-- Leading-zero trim of lines 726-728: drop leading zero bytes but keep
at least the final byte. -/
def trimLeadingZeroBytes (bs : List Nat) : List Nat :=
  match bs.dropWhile (· == 0) with
  | [] => [0]
  | r => r

/-- `base12_to_bytes_with_scale` (lines 639-741): strip an optional sign,
split at the first `'.'` (`strchr`), run the multiply-add loop over the
integer then the fractional region, trim leading zero bytes, and report
`out_scale = strlen(frac)` — the count of *all* characters after the
point, skip characters included.  Errors (`-1`/`-2`) are `none`; the sign
is not encoded in the bytes (lines 736-739). -/
def base12_to_bytes_with_scale_data (cs : List Char) : Option (List Nat × Nat) :=
  let p := stripSign cs
  let intPart := p.takeWhile (· != '.')
  let fracPart := (p.dropWhile (· != '.')).drop 1
  match parseB12Digits intPart (0, 1) with
  | none => none
  | some st1 =>
    match parseB12Digits fracPart st1 with
    | none => none
    | some st2 =>
      some (trimLeadingZeroBytes (natToBeBytesLen st2.1 st2.2), fracPart.length)

/-- `base12_to_bytes_with_scale` on a `String`. -/
def base12_to_bytes_with_scale (s : String) : Option (List Nat × Nat) :=
  base12_to_bytes_with_scale_data s.data

/-- Error discriminants of `tr_from_base12_u64` (both map to C return `-1`,
distinguished by the last-error text "invalid digit" / "overflow"). -/
inductive B12Err
  | invalidDigit
  | overflow
deriving DecidableEq, Repr

/-- `UINT64_MAX`. -/
def U64_MAX : Nat := 2 ^ 64 - 1

/-- The digit loop of `tr_from_base12_u64` (lines 492-502): skip `_`/space,
reject non-digits, fail with overflow when `val > (UINT64_MAX - d) / 12`,
else `val := val * 12 + d`. -/
def fromB12U64Loop : List Char → Nat → Except B12Err Nat
  | [], val => .ok val
  | c :: rest, val =>
    if isSkipChar c then fromB12U64Loop rest val
    else match b12DigitVal c with
      | none => .error .invalidDigit
      | some d =>
        if (U64_MAX - d) / 12 < val then .error .overflow
        else fromB12U64Loop rest (val * 12 + d)

/-- `tr_from_base12_u64` (lines 485-505).  A leading `'-'` makes the final
store `(uint64_t)(-(int64_t)val)`, i.e. the two's-complement wrap
`(2 ^ 64 - val) % 2 ^ 64`.  Null-pointer arguments are outside the model. -/
def tr_from_base12_u64 (s : String) : Except B12Err Nat :=
  match fromB12U64Loop (stripSign s.data) 0 with
  | .error e => .error e
  | .ok v => .ok (if isNegSign s.data then (2 ^ 64 - v) % 2 ^ 64 else v)

/-- Digit value with default 0, for stating positional values. -/
def b12DigitValD (c : Char) : Nat := (b12DigitVal c).getD 0

/-- Mathematical value of a base-12 digit string (most significant digit
first), via Mathlib's positional `Nat.ofDigits`. -/
def base12Value (cs : List Char) : Nat := Nat.ofDigits 12 ((cs.map b12DigitValD).reverse)

/-- Whether a character is a base-12 digit. -/
def isB12DigitChar (c : Char) : Bool := (b12DigitVal c).isSome

/-! ## Channel (src/trion_runtime.c:296-389)

A bounded circular buffer of `void*` items.  Items are modelled by a type
parameter `α` (with `default` standing for `NULL`, which the recv path
writes into the vacated slot).  The mutex and condition variables
serialize the operations; the claims quantify over externally-serialized
operation sequences, so each C call is one atomic step here.  A blocking
call that would sleep on a condition variable (buffer full on send, open
and empty on recv) cannot complete in a single serialized step; that is
the `wouldWait` outcome (C-wise it later returns `-3` on a timed wait's
expiry, or completes after another thread changes the state). -/

/-- Channel state (lines 297-307). -/
structure Channel (α : Type) where
  buffer : Nat → α
  capacity : Nat
  head : Nat
  tail : Nat
  count : Nat
  closed : Bool

/-- Outcomes of `channel_send` (lines 345-366). -/
inductive SendResult
  | ok
  | closedErr
  | wouldBlock
  | wouldWait
deriving DecidableEq, Repr

/-- Outcomes of `channel_recv` (lines 368-389). -/
inductive RecvResult (α : Type)
  | ok (item : α)
  | drained
  | wouldBlock
  | wouldWait
deriving DecidableEq, Repr

/-- C return code of a recv outcome: `1` item, `0` closed-and-drained,
`-2` would block, `-3` timeout of the bounded wait. -/
def recvCode {α : Type} : RecvResult α → Int
  | .ok _ => 1
  | .drained => 0
  | .wouldBlock => -2
  | .wouldWait => -3

/-- C return code of a send outcome: `0` ok, `-1` closed, `-2` would
block, `-3` timeout of the bounded wait. -/
def sendCode : SendResult → Int
  | .ok => 0
  | .closedErr => -1
  | .wouldBlock => -2
  | .wouldWait => -3

/-- `channel_create` (lines 309-323): capacity 0 is rejected; the buffer
is zeroed (`calloc`), head = tail = count = 0, not closed. -/
def channel_create (α : Type) [Inhabited α] (capacity : Nat) : Option (Channel α) :=
  if capacity = 0 then none
  else some { buffer := fun _ => default, capacity := capacity,
              head := 0, tail := 0, count := 0, closed := false }

/-- `channel_send` (lines 345-366): closed is checked first and returns
`-1`; a full buffer yields `-2` non-blocking or a wait; otherwise the item
is stored at `tail`, `tail` advances mod capacity, `count` increments. -/
def channel_send {α : Type} (c : Channel α) (item : α) (blocking : Bool) :
    SendResult × Channel α :=
  if c.closed then (.closedErr, c)
  else if c.count = c.capacity then
    (if blocking then .wouldWait else .wouldBlock, c)
  else
    (.ok, { c with buffer := fun i => if i = c.tail then item else c.buffer i,
                   tail := (c.tail + 1) % c.capacity,
                   count := c.count + 1 })

/-- `channel_recv` (lines 368-389): an empty closed channel returns `0`
immediately; empty non-blocking returns `-2`; empty blocking waits;
otherwise the item at `head` is returned (code `1`), the slot is cleared
to `NULL`, `head` advances mod capacity, `count` decrements. -/
def channel_recv {α : Type} [Inhabited α] (c : Channel α) (blocking : Bool) :
    RecvResult α × Channel α :=
  if c.count = 0 then
    if c.closed then (.drained, c)
    else if blocking then (.wouldWait, c) else (.wouldBlock, c)
  else
    (.ok (c.buffer c.head),
     { c with buffer := fun i => if i = c.head then default else c.buffer i,
              head := (c.head + 1) % c.capacity,
              count := c.count - 1 })

/-- `channel_close` (lines 325-333): sets the closed flag (the broadcasts
only wake waiters; they do not change the state). -/
def channel_close {α : Type} (c : Channel α) : Channel α := { c with closed := true }

/-- One externally-serialized channel API call. -/
inductive ChanOp (α : Type)
  | send (item : α) (blocking : Bool)
  | recv (blocking : Bool)
  | close

/-- State transition of one channel call (result discarded). -/
def stepChan {α : Type} [Inhabited α] (c : Channel α) : ChanOp α → Channel α
  | .send item b => (channel_send c item b).2
  | .recv b => (channel_recv c b).2
  | .close => channel_close c

/-- Run a sequence of channel calls. -/
def runChanOps {α : Type} [Inhabited α] (c : Channel α) (ops : List (ChanOp α)) : Channel α :=
  ops.foldl stepChan c

/-- A channel run together with the items accepted by successful sends and
the items delivered by successful receives, in order. -/
structure TraceState (α : Type) where
  chan : Channel α
  sent : List α
  recvd : List α

/-- One serialized call, recording successful sends and receives. -/
def traceStep {α : Type} [Inhabited α] (t : TraceState α) : ChanOp α → TraceState α
  | .send item b =>
    match channel_send t.chan item b with
    | (.ok, c') => { chan := c', sent := t.sent ++ [item], recvd := t.recvd }
    | (_, c') => { chan := c', sent := t.sent, recvd := t.recvd }
  | .recv b =>
    match channel_recv t.chan b with
    | (.ok item, c') => { chan := c', sent := t.sent, recvd := t.recvd ++ [item] }
    | (_, c') => { chan := c', sent := t.sent, recvd := t.recvd }
  | .close => { t with chan := channel_close t.chan }

/-- Run a call sequence from an initial trace state. -/
def runTrace {α : Type} [Inhabited α] (t : TraceState α) (ops : List (ChanOp α)) : TraceState α :=
  ops.foldl traceStep t

/-- Structural well-formedness of a channel, established by
`channel_create` and maintained by every operation. -/
def chanWF {α : Type} (c : Channel α) : Prop :=
  0 < c.capacity ∧ c.head < c.capacity ∧ c.count ≤ c.capacity ∧
    c.tail = (c.head + c.count) % c.capacity

/-- The queue abstraction: the `count` items starting at `head`, in ring
order. -/
def chanItems {α : Type} (c : Channel α) : List α :=
  (List.range c.count).map fun i => c.buffer ((c.head + i) % c.capacity)

/-- The state produced by a successful send (the insert of lines 360-362),
named for reuse in the proofs. -/
def sendState {α : Type} (c : Channel α) (item : α) : Channel α :=
  { c with buffer := fun i => if i = c.tail then item else c.buffer i,
           tail := (c.tail + 1) % c.capacity,
           count := c.count + 1 }

/-- The state produced by a successful receive (the extract of lines
382-385), named for reuse in the proofs. -/
def recvState {α : Type} [Inhabited α] (c : Channel α) : Channel α :=
  { c with buffer := fun i => if i = c.head then default else c.buffer i,
           head := (c.head + 1) % c.capacity,
           count := c.count - 1 }

/-- Trace invariant: the channel is well-formed and the successfully sent
items are exactly the successfully received items followed by the queue
contents. -/
def traceInv {α : Type} (t : TraceState α) : Prop :=
  chanWF t.chan ∧ t.sent = t.recvd ++ chanItems t.chan

/-! ## Quarantine (src/trion_runtime.c:195-294)

A bag of live allocations plus a monotone seal flag.  Allocations are
opaque pointers, modelled as `Nat`; `malloc`'s fresh pointer is an
explicit argument of `quarantine_alloc` (out-of-memory paths are outside
the claims). -/

/-- Quarantine state: the bag of live allocations (in vector order) and
the seal flag. -/
structure Quarantine where
  items : List Nat
  sealedFlag : Bool
deriving DecidableEq, Repr

/-- Error discriminants of `quarantine_alloc` (both return `NULL` in C,
distinguished by the last-error text). -/
inductive AllocErr
  | invalidArgs
  | sealedErr
deriving DecidableEq, Repr

/-- `quarantine_alloc` (lines 233-251): size 0 is `InvalidArgs`; a sealed
quarantine refuses with `Sealed`; otherwise the fresh pointer `p` is
recorded and returned. -/
def quarantine_alloc (q : Quarantine) (size : Nat) (p : Nat) :
    Except AllocErr Nat × Quarantine :=
  if size = 0 then (.error .invalidArgs, q)
  else if q.sealedFlag then (.error .sealedErr, q)
  else (.ok p, { q with items := q.items ++ [p] })

/-- `quarantine_free` (lines 253-270): linear scan; on hit the last entry
is swapped into the vacated slot and the count drops; miss returns `-1`. -/
def quarantine_free (q : Quarantine) (ptr : Nat) : Int × Quarantine :=
  match q.items.findIdx? (· == ptr) with
  | none => (-1, q)
  | some i => (0, { q with items := (q.items.set i (q.items.getLastD 0)).dropLast })

/-- `quarantine_seal` (lines 272-278). -/
def quarantine_seal (q : Quarantine) : Quarantine := { q with sealedFlag := true }

/-- One quarantine API call. -/
inductive QOp
  | alloc (size p : Nat)
  | qfree (ptr : Nat)
  | sealQ

/-- State transition of one quarantine call. -/
def stepQ (q : Quarantine) : QOp → Quarantine
  | .alloc size p => (quarantine_alloc q size p).2
  | .qfree ptr => (quarantine_free q ptr).2
  | .sealQ => quarantine_seal q

/-- Run a sequence of quarantine calls. -/
def runQOps (q : Quarantine) (ops : List QOp) : Quarantine := ops.foldl stepQ q

/-! ## Syscall registry (src/trion_runtime.c:1008-1132)

Entries are looked up by name, first match wins.  The handler call is
opaque to the registry; an entry's `handlerRet` stands for the return
code its handler produces, so the invoke result records whether the
handler was reached. -/

/-- A registry entry (lines 1008-1015); the handler function pointer and
context are represented by the opaque return code `handlerRet`. -/
structure SyscallEntry where
  name : String
  flags : Int
  auth_token : Option String
  handlerRet : Int
deriving DecidableEq, Repr

/-- Result of `tr_invoke_syscall_ex`: either an early return or a call of
the matched entry's handler. -/
inductive InvokeOutcome
  | noRegistry
  | notFound
  | authFailed
  | handled (e : SyscallEntry)
deriving DecidableEq, Repr

/-- Name lookup of lines 1097-1098: first `strcmp` match wins. -/
def lookupSyscall : List SyscallEntry → String → Option SyscallEntry
  | [], _ => none
  | e :: rest, name => if e.name = name then some e else lookupSyscall rest name

/-- `tr_invoke_syscall_ex` (lines 1091-1122), with the registry passed
explicitly (`none` = the global registry was never created).  A missing
registry returns `-2`; a failed lookup returns `-3`; an entry with an auth
token requires a byte-equal caller token, else `-4` without calling the
handler; otherwise the handler runs.  The null-name `-1` path is outside
the model. -/
def tr_invoke_syscall_ex (reg : Option (List SyscallEntry)) (name : String)
    (auth_token : Option String) : InvokeOutcome :=
  match reg with
  | none => .noRegistry
  | some entries =>
    match lookupSyscall entries name with
    | none => .notFound
    | some e =>
      match e.auth_token with
      | none => .handled e
      | some t =>
        match auth_token with
        | none => .authFailed
        | some a => if a = t then .handled e else .authFailed

/-- The integer returned to the C caller for each invoke outcome
(lines 1094, 1105, 1113-1116, 1121). -/
def invokeCode : InvokeOutcome → Int
  | .noRegistry => -2
  | .notFound => -3
  | .authFailed => -4
  | .handled e => e.handlerRet

/-! ## Theorems -/

/-- C1: the round-trip `decode_with_scale (encode_with_scale b s) = (b_trimmed, s)`
fails on the code.  At `b = [0x02]`, `s = 1` the encoder's fractional pad
(`need = scale + 1 - totlen`, line 614) emits one extra zero, so the
output is `"0.02"` and decoding returns scale `2`, not `1`.  Independently,
at `b = [0x01, 0x21]`, `s = 0` the decoder's buffer-grow path
(`memmove(ptr + 1, ptr, bn_len)`, line 694) drops the least-significant
byte: `"201"` (value 289) decodes to bytes `[0x01, 0x00]` (value 256). -/
theorem c1_roundtrip_fails :
    bytes_to_base12_scaled [2] 1 = "0.02" ∧
    base12_to_bytes_with_scale "0.02" = some ([2], 2) ∧
    base12_to_bytes_with_scale (bytes_to_base12_scaled [2] 1) ≠ some ([2], 1) ∧
    bytes_to_base12_scaled [1, 33] 0 = "201" ∧
    base12_to_bytes_with_scale "201" = some ([1, 0], 0) ∧
    ([1, 0] : List Nat) ≠ [1, 33] := by decide

/-- C2: with `s > 0`, when the integer form has `totlen ≤ s` digits the
fractional part of `bytes_to_base12_scaled` has `s + 1` digits, not
exactly `s`: at `b = [0x02]`, `s = 1` the output is `"0.02"` (two
fractional digits) where the claim mandates `"0.2"`. -/
theorem c2_fraction_pad_off_by_one :
    bytes_to_base12_scaled [2] 1 = "0.02" ∧
    (((bytes_to_base12_scaled_data [2] 1).dropWhile (· != '.')).drop 1).length = 2 ∧
    bytes_to_base12_scaled [2] 1 ≠ "0.2" := by decide

/-- C3: `channel_recv` on a closed channel never blocks: closed and empty
returns the `Drained` code 0 with the state untouched; closed and
non-empty dequeues the head item and returns code 1; neither a wait nor a
`WouldBlock` outcome is possible. -/
theorem c3_recv_closed_never_blocks {α : Type} [Inhabited α] (c : Channel α) (b : Bool)
    (h : c.closed = true) :
    (c.count = 0 →
      channel_recv c b = (RecvResult.drained, c) ∧
      recvCode (channel_recv c b).1 = 0) ∧
    (c.count ≠ 0 →
      channel_recv c b =
        (RecvResult.ok (c.buffer c.head),
         { c with buffer := fun i => if i = c.head then default else c.buffer i,
                  head := (c.head + 1) % c.capacity,
                  count := c.count - 1 }) ∧
      recvCode (channel_recv c b).1 = 1) ∧
    (channel_recv c b).1 ≠ RecvResult.wouldWait ∧
    (channel_recv c b).1 ≠ RecvResult.wouldBlock := by
  by_cases hc : c.count = 0 <;>
    simp [channel_recv, hc, h, recvCode]

/-- C3 witness: a concrete closed channel, in both the empty and the
non-empty configuration. -/
theorem c3_recv_closed_never_blocks_witness :
    (channel_recv { buffer := fun _ => (0 : Nat), capacity := 2, head := 0, tail := 0,
                    count := 0, closed := true } true).1 = RecvResult.drained ∧
    (channel_recv { buffer := fun _ => (7 : Nat), capacity := 2, head := 1, tail := 0,
                    count := 1, closed := true } true).1 = RecvResult.ok 7 := by
  constructor
  · have h := (c3_recv_closed_never_blocks
      (c := { buffer := fun _ => (0 : Nat), capacity := 2, head := 0, tail := 0,
              count := 0, closed := true }) true rfl).1 rfl
    rw [h.1]
  · have h := ((c3_recv_closed_never_blocks
      (c := { buffer := fun _ => (7 : Nat), capacity := 2, head := 1, tail := 0,
              count := 1, closed := true }) true rfl).2.1 (by decide)).1
    rw [h]

/-- The closed flag survives any channel call. -/
theorem stepChan_closed {α : Type} [Inhabited α] (c : Channel α) (op : ChanOp α)
    (h : c.closed = true) : (stepChan c op).closed = true := by
  cases op with
  | send item b => simp [stepChan, channel_send, h]
  | recv b =>
    by_cases hc : c.count = 0 <;> simp [stepChan, channel_recv, hc, h]
  | close => simp [stepChan, channel_close]

/-- The closed flag survives any sequence of channel calls. -/
theorem runChanOps_closed {α : Type} [Inhabited α] (ops : List (ChanOp α)) (c : Channel α)
    (h : c.closed = true) : (runChanOps c ops).closed = true := by
  induction ops generalizing c with
  | nil => exact h
  | cons op rest ih => exact ih (stepChan c op) (stepChan_closed c op h)

/-- C4: once `channel_close` has run, the channel stays closed across any
further sequence of operations, and every `channel_send` on it returns
`Closed` (`-1`) leaving the state — buffer, head, tail, count — exactly
as it was. -/
theorem c4_send_after_close {α : Type} [Inhabited α] (c : Channel α) (ops : List (ChanOp α))
    (item : α) (b : Bool) :
    (runChanOps (channel_close c) ops).closed = true ∧
    channel_send (runChanOps (channel_close c) ops) item b =
      (SendResult.closedErr, runChanOps (channel_close c) ops) ∧
    sendCode SendResult.closedErr = -1 := by
  have hcl : (runChanOps (channel_close c) ops).closed = true :=
    runChanOps_closed ops (channel_close c) (by simp [channel_close])
  exact ⟨hcl, by simp [channel_send, hcl], rfl⟩

/-- The seal flag survives any quarantine call. -/
theorem stepQ_sealedFlag (q : Quarantine) (op : QOp) (h : q.sealedFlag = true) :
    (stepQ q op).sealedFlag = true := by
  cases op with
  | alloc size p => by_cases hs : size = 0 <;> simp [stepQ, quarantine_alloc, hs, h]
  | qfree ptr =>
    cases hf : q.items.findIdx? (· == ptr) <;> simp [stepQ, quarantine_free, hf, h]
  | sealQ => simp [stepQ, quarantine_seal]

/-- The seal flag survives any sequence of quarantine calls. -/
theorem runQOps_sealedFlag (ops : List QOp) (q : Quarantine) (h : q.sealedFlag = true) :
    (runQOps q ops).sealedFlag = true := by
  induction ops generalizing q with
  | nil => exact h
  | cons op rest ih => exact ih (stepQ q op) (stepQ_sealedFlag q op h)

/-- C6: the seal flag is monotone — after `quarantine_seal` no sequence of
alloc/free/seal calls clears it — and every `quarantine_alloc` on a sealed
quarantine fails (returns null) leaving the bag of live allocations
unchanged; for every nonzero size the failure is `Sealed` (size 0 is the
`InvalidArgs` guard, checked before the seal flag). -/
theorem c6_seal_monotone (q : Quarantine) (ops : List QOp) :
    (runQOps (quarantine_seal q) ops).sealedFlag = true ∧
    ∀ q' : Quarantine, q'.sealedFlag = true → ∀ size p : Nat,
      (quarantine_alloc q' size p).2 = q' ∧
      (quarantine_alloc q' size p).1 =
        Except.error (if size = 0 then AllocErr.invalidArgs else AllocErr.sealedErr) := by
  refine ⟨runQOps_sealedFlag ops (quarantine_seal q) (by simp [quarantine_seal]), ?_⟩
  intro q' h size p
  by_cases hs : size = 0 <;> simp [quarantine_alloc, hs, h]

/-- C6 witness: seal a concrete quarantine, run further calls, and attempt
an allocation on a sealed quarantine. -/
theorem c6_seal_monotone_witness :
    (runQOps (quarantine_seal { items := [], sealedFlag := false })
      [QOp.alloc 8 100, QOp.qfree 3, QOp.sealQ]).sealedFlag = true ∧
    (quarantine_alloc { items := [5], sealedFlag := true } 8 7).2 =
      { items := [5], sealedFlag := true } ∧
    (quarantine_alloc { items := [5], sealedFlag := true } 8 7).1 =
      Except.error AllocErr.sealedErr := by
  obtain ⟨h1, h2⟩ := c6_seal_monotone { items := [], sealedFlag := false }
    [QOp.alloc 8 100, QOp.qfree 3, QOp.sealQ]
  refine ⟨h1, (h2 { items := [5], sealedFlag := true } rfl 8 7).1, ?_⟩
  have h3 := (h2 { items := [5], sealedFlag := true } rfl 8 7).2
  simpa using h3

/-- C7 counterexample: with an initialized registry holding no entry named
`"bar"`, `tr_invoke_syscall_ex` returns `-3`, not the claimed `-2`. -/
theorem c7_counterexample :
    invokeCode (tr_invoke_syscall_ex
      (some [{ name := "foo", flags := 0, auth_token := none, handlerRet := 0 }])
      "bar" none) = -3 ∧
    ((-3 : Int) = -2 → False) := by decide

/-- C7 amended: a lookup miss in an existing registry yields `NotFound`
with return code `-3`; `-2` is produced only when the global registry was
never created (the `!g_syscall_registry` guard, line 1094).
`tr_invoke_syscall_ex` is itself the C-linkage entry point — no further
facade remaps the code. -/
theorem c7_notfound_returns_neg3 (entries : List SyscallEntry) (name : String)
    (auth : Option String) (h : lookupSyscall entries name = none) :
    tr_invoke_syscall_ex (some entries) name auth = InvokeOutcome.notFound ∧
    invokeCode (tr_invoke_syscall_ex (some entries) name auth) = -3 ∧
    tr_invoke_syscall_ex none name auth = InvokeOutcome.noRegistry ∧
    invokeCode (tr_invoke_syscall_ex none name auth) = -2 := by
  simp [tr_invoke_syscall_ex, h, invokeCode]

/-- C7 witness: the amended statement at a concrete registry and name. -/
theorem c7_notfound_returns_neg3_witness :
    tr_invoke_syscall_ex
      (some [{ name := "foo", flags := 0, auth_token := none, handlerRet := 0 }])
      "bar" none = InvokeOutcome.notFound ∧
    invokeCode (tr_invoke_syscall_ex
      (some [{ name := "foo", flags := 0, auth_token := none, handlerRet := 0 }])
      "bar" none) = -3 :=
  ⟨(c7_notfound_returns_neg3
      [{ name := "foo", flags := 0, auth_token := none, handlerRet := 0 }]
      "bar" none (by decide)).1,
   (c7_notfound_returns_neg3
      [{ name := "foo", flags := 0, auth_token := none, handlerRet := 0 }]
      "bar" none (by decide)).2.1⟩

/-- C8: when the entry found for `name` carries a non-null auth token,
any absent or non-byte-equal caller token makes `tr_invoke_syscall_ex`
return `AuthFailed` (`-4`) without reaching any handler, and the
byte-equal token makes it proceed to call that entry's handler. -/
theorem c8_auth_token (entries : List SyscallEntry) (name : String) (e : SyscallEntry)
    (t : String) (auth : Option String)
    (hl : lookupSyscall entries name = some e) (ht : e.auth_token = some t) :
    (auth ≠ some t →
      tr_invoke_syscall_ex (some entries) name auth = InvokeOutcome.authFailed ∧
      invokeCode (tr_invoke_syscall_ex (some entries) name auth) = -4 ∧
      ∀ e' : SyscallEntry,
        tr_invoke_syscall_ex (some entries) name auth ≠ InvokeOutcome.handled e') ∧
    (auth = some t →
      tr_invoke_syscall_ex (some entries) name auth = InvokeOutcome.handled e ∧
      invokeCode (tr_invoke_syscall_ex (some entries) name auth) = e.handlerRet) := by
  constructor
  · intro hne
    cases auth with
    | none => simp [tr_invoke_syscall_ex, hl, ht, invokeCode]
    | some a =>
      have ha : ¬ a = t := fun hat => hne (by rw [hat])
      simp [tr_invoke_syscall_ex, hl, ht, ha, invokeCode]
  · intro heq
    subst heq
    simp [tr_invoke_syscall_ex, hl, ht, invokeCode]

/-- C8 witness: the spec's own scenario — entry `"echo"` with token
`"t"`; a null token is rejected with `-4`, the matching token reaches the
handler. -/
theorem c8_auth_token_witness :
    tr_invoke_syscall_ex
      (some [{ name := "echo", flags := 1, auth_token := some "t", handlerRet := 0 }])
      "echo" none = InvokeOutcome.authFailed ∧
    tr_invoke_syscall_ex
      (some [{ name := "echo", flags := 1, auth_token := some "t", handlerRet := 0 }])
      "echo" (some "t") =
      InvokeOutcome.handled
        { name := "echo", flags := 1, auth_token := some "t", handlerRet := 0 } :=
  ⟨((c8_auth_token
      [{ name := "echo", flags := 1, auth_token := some "t", handlerRet := 0 }]
      "echo" { name := "echo", flags := 1, auth_token := some "t", handlerRet := 0 }
      "t" none (by decide) rfl).1 (by decide)).1,
   ((c8_auth_token
      [{ name := "echo", flags := 1, auth_token := some "t", handlerRet := 0 }]
      "echo" { name := "echo", flags := 1, auth_token := some "t", handlerRet := 0 }
      "t" (some "t") (by decide) rfl).2 rfl).1⟩

/-- Mathematical value accumulated left-to-right, as the two decoders do:
`val := val * 12 + digit`. -/
def b12Horner (val : Nat) : List Char → Nat
  | [] => val
  | c :: rest => b12Horner (val * 12 + b12DigitValD c) rest

/-- A skip character is not a digit. -/
theorem skip_not_digit (c : Char) (h : isSkipChar c = true) : isB12DigitChar c = false := by
  have hc : c = '_' ∨ c = ' ' := by
    simpa [isSkipChar] using h
  rcases hc with rfl | rfl <;> decide

/-- A skip character is not a sign. -/
theorem skip_not_sign (c : Char) (h : isSkipChar c = true) : ¬ (c = '+' ∨ c = '-') := by
  have hc : c = '_' ∨ c = ' ' := by
    simpa [isSkipChar] using h
  rcases hc with rfl | rfl <;> decide

/-- A digit character is not a skip character. -/
theorem digit_not_skip (c : Char) (h : isB12DigitChar c = true) : isSkipChar c = false := by
  cases hsk : isSkipChar c with
  | false => rfl
  | true => rw [skip_not_digit c hsk] at h; exact absurd h (by simp)

/-- A digit character is not a sign. -/
theorem digit_not_sign (c : Char) (h : isB12DigitChar c = true) : ¬ (c = '+' ∨ c = '-') := by
  rintro (rfl | rfl) <;> exact absurd h (by decide)

/-- Every base-12 digit value is at most 11. -/
theorem b12DigitVal_le_11 (c : Char) (d : Nat) (h : b12DigitVal c = some d) : d ≤ 11 := by
  unfold b12DigitVal at h
  split_ifs at h with h1 h2 h3
  · have h9 : c.toNat ≤ 57 := by
      have := h1.2
      simp only [Char.le_def] at this
      exact this
    injection h with hh
    have h48 : ('0').toNat = 48 := rfl
    rw [h48] at hh
    omega
  · injection h with hh
    omega
  · injection h with hh
    omega

/-- The Horner value only grows along the digits. -/
theorem b12Horner_ge (cs : List Char) : ∀ val : Nat, val ≤ b12Horner val cs := by
  induction cs with
  | nil => intro val; exact Nat.le_refl val
  | cons c rest ih =>
    intro val
    exact Nat.le_trans (by omega) (ih (val * 12 + b12DigitValD c))

/-- Splitting the Horner accumulator from the digits. -/
theorem b12Horner_split (cs : List Char) :
    ∀ val : Nat, b12Horner val cs = val * 12 ^ cs.length + b12Horner 0 cs := by
  induction cs with
  | nil => intro val; simp [b12Horner]
  | cons c rest ih =>
    intro val
    have h1 := ih (val * 12 + b12DigitValD c)
    have h2 := ih (0 * 12 + b12DigitValD c)
    simp only [b12Horner, h1, h2, List.length_cons]
    ring

/-- The Horner value of a digit string is its positional base-12 value. -/
theorem b12Horner_eq_base12Value (cs : List Char) : b12Horner 0 cs = base12Value cs := by
  induction cs with
  | nil => simp [b12Horner, base12Value, Nat.ofDigits]
  | cons c rest ih =>
    have h1 := b12Horner_split rest (0 * 12 + b12DigitValD c)
    simp only [b12Horner, h1, ih]
    simp only [base12Value, List.map_cons, List.reverse_cons, Nat.ofDigits_append,
      Nat.ofDigits_singleton, List.length_reverse, List.length_map]
    ring

/-- The u64 decode loop computes the Horner value exactly when it fits in
64 bits and fails with overflow otherwise. -/
theorem fromB12U64Loop_eq (cs : List Char) :
    ∀ val : Nat, (∀ c ∈ cs, isB12DigitChar c = true) → val ≤ U64_MAX →
    fromB12U64Loop cs val =
      if b12Horner val cs ≤ U64_MAX then .ok (b12Horner val cs)
      else .error .overflow := by
  induction cs with
  | nil =>
    intro val _ hval
    simp [fromB12U64Loop, b12Horner, hval]
  | cons c rest ih =>
    intro val h hval
    have hc : isB12DigitChar c = true := h c (by simp)
    have hrest : ∀ x ∈ rest, isB12DigitChar x = true := fun x hx => h x (by simp [hx])
    have hsk : isSkipChar c = false := digit_not_skip c hc
    obtain ⟨d, hd⟩ : ∃ d, b12DigitVal c = some d := by
      have := hc
      simp only [isB12DigitChar, Option.isSome_iff_exists] at this
      exact this
    have hdv : b12DigitValD c = d := by simp [b12DigitValD, hd]
    have hd11 : d ≤ 11 := b12DigitVal_le_11 c d hd
    have hmax : (11 : Nat) ≤ U64_MAX := by decide
    rw [fromB12U64Loop, hsk, hd]
    simp only [Bool.false_eq_true, if_false]
    by_cases hov : (U64_MAX - d) / 12 < val
    · rw [if_pos hov]
      have hlt : U64_MAX - d < val * 12 :=
        (Nat.div_lt_iff_lt_mul (by omega)).mp hov
      have hbig : U64_MAX < val * 12 + d := by omega
      have hge : val * 12 + d ≤ b12Horner val (c :: rest) := by
        simpa only [b12Horner, hdv] using b12Horner_ge rest (val * 12 + d)
      rw [if_neg (by omega)]
    · rw [if_neg hov]
      have hle : val ≤ (U64_MAX - d) / 12 := Nat.le_of_not_lt hov
      have hmul : val * 12 ≤ U64_MAX - d :=
        (Nat.le_div_iff_mul_le (by omega)).mp hle
      have hfit : val * 12 + d ≤ U64_MAX := by omega
      have := ih (val * 12 + d) hrest hfit
      simpa only [b12Horner, hdv] using this

/-- C9: on a pure base-12 digit string, `tr_from_base12_u64` returns the
exact value whenever it is at most `2 ^ 64 - 1`, and fails with
`Overflow` (the `val > (UINT64_MAX - d) / 12` pre-check) whenever the
value exceeds `2 ^ 64 - 1`. -/
theorem c9_u64_exact_and_overflow (s : String)
    (hd : ∀ c ∈ s.data, isB12DigitChar c = true) :
    (base12Value s.data ≤ U64_MAX →
      tr_from_base12_u64 s = .ok (base12Value s.data)) ∧
    (U64_MAX < base12Value s.data →
      tr_from_base12_u64 s = .error .overflow) := by
  have hstrip : stripSign s.data = s.data := by
    cases hcs : s.data with
    | nil => rfl
    | cons c rest =>
      have hc : isB12DigitChar c = true := by
        have := hd c
        rw [hcs] at this
        exact this (by simp)
      have hred : stripSign (c :: rest) =
          if c = '+' ∨ c = '-' then rest else c :: rest := rfl
      rw [hred, if_neg (digit_not_sign c hc)]
  have hneg : isNegSign s.data = false := by
    cases hcs : s.data with
    | nil => rfl
    | cons c rest =>
      have hc : isB12DigitChar c = true := by
        have := hd c
        rw [hcs] at this
        exact this (by simp)
      have : ¬ c = '-' := fun hcm => digit_not_sign c hc (Or.inr hcm)
      simp [isNegSign, this]
  have hloop := fromB12U64Loop_eq s.data 0 hd (Nat.zero_le _)
  have hv : b12Horner 0 s.data = base12Value s.data := b12Horner_eq_base12Value s.data
  constructor
  · intro hle
    unfold tr_from_base12_u64
    rw [hstrip, hloop, hv, if_pos hle, hneg]
    simp
  · intro hgt
    unfold tr_from_base12_u64
    rw [hstrip, hloop, hv, if_neg (by omega)]

/-- C9 witness: `"9ba461593"` (= 4294967295) decodes exactly; a 1 followed
by eighteen zeros (= 12¹⁸ > 2⁶⁴ − 1) overflows. -/
theorem c9_u64_exact_and_overflow_witness :
    tr_from_base12_u64 "9ba461593" = .ok 4294967295 ∧
    tr_from_base12_u64 "1000000000000000000" = .error .overflow := by
  constructor
  · have hv : base12Value "9ba461593".data = 4294967295 := by decide
    have h := (c9_u64_exact_and_overflow "9ba461593" (by decide)).1 (by decide)
    rw [h, hv]
  · exact (c9_u64_exact_and_overflow "1000000000000000000" (by decide)).2 (by decide)

/-- Skip-only input leaves the u64 decode loop's accumulator untouched. -/
theorem fromB12U64Loop_skips (cs : List Char) (val : Nat)
    (h : ∀ c ∈ cs, isSkipChar c = true) : fromB12U64Loop cs val = .ok val := by
  induction cs with
  | nil => rfl
  | cons c rest ih =>
    rw [fromB12U64Loop, h c (by simp)]
    exact ih fun x hx => h x (by simp [hx])

/-- Skip-only input leaves the big-number parse state untouched. -/
theorem parseB12Digits_skips (cs : List Char) (st : Nat × Nat)
    (h : ∀ c ∈ cs, isSkipChar c = true) : parseB12Digits cs st = some st := by
  induction cs with
  | nil => rfl
  | cons c rest ih =>
    rw [parseB12Digits, h c (by simp)]
    exact ih fun x hx => h x (by simp [hx])

/-- Skip-only input contains no radix point. -/
theorem skips_no_dot (cs : List Char) (h : ∀ c ∈ cs, isSkipChar c = true) :
    cs.takeWhile (· != '.') = cs ∧ cs.dropWhile (· != '.') = [] := by
  induction cs with
  | nil => exact ⟨rfl, rfl⟩
  | cons c rest ih =>
    have hc : c = '_' ∨ c = ' ' := by
      simpa [isSkipChar] using h c (by simp)
    have hne : (c != '.') = true := by rcases hc with rfl | rfl <;> decide
    obtain ⟨h1, h2⟩ := ih fun x hx => h x (by simp [hx])
    simp [List.takeWhile_cons, List.dropWhile_cons, hne, h1, h2]

/-- C10: a string that is just an optional sign followed by skip
characters (underscore, space) — the empty string included — is accepted
as zero by both decoders: `tr_from_base12_u64` succeeds with value 0, and
`base12_to_bytes_with_scale` succeeds with the single byte 0 and scale 0.
No at-least-one-digit check exists. -/
theorem c10_digit_free_is_zero (sign rest : List Char)
    (hs : sign = [] ∨ sign = ['+'] ∨ sign = ['-'])
    (hr : ∀ c ∈ rest, isSkipChar c = true) :
    tr_from_base12_u64 (String.mk (sign ++ rest)) = .ok 0 ∧
    base12_to_bytes_with_scale (String.mk (sign ++ rest)) = some ([0], 0) := by
  have hstrip : stripSign (sign ++ rest) = rest := by
    rcases hs with rfl | rfl | rfl
    · cases hcs : rest with
      | nil => rfl
      | cons c r =>
        simp only [List.nil_append]
        have hred : stripSign (c :: r) =
            if c = '+' ∨ c = '-' then r else c :: r := rfl
        rw [hred, if_neg (skip_not_sign c (hr c (by simp [hcs])))]
    · simp [stripSign]
    · simp [stripSign]
  have hdata : (String.mk (sign ++ rest)).data = sign ++ rest := rfl
  obtain ⟨htake, hdrop⟩ := skips_no_dot rest hr
  constructor
  · unfold tr_from_base12_u64
    rw [hdata, hstrip, fromB12U64Loop_skips rest 0 hr]
    cases h : isNegSign (sign ++ rest) <;> simp
  · unfold base12_to_bytes_with_scale base12_to_bytes_with_scale_data
    rw [hdata, hstrip]
    simp only [htake, hdrop, List.drop_nil]
    rw [parseB12Digits_skips rest (0, 1) hr]
    rfl

/-- C10 witness: the string `"-_ "` (sign plus skips only). -/
theorem c10_digit_free_is_zero_witness :
    tr_from_base12_u64 (String.mk (['-'] ++ ['_', ' '])) = .ok 0 ∧
    base12_to_bytes_with_scale (String.mk (['-'] ++ ['_', ' '])) = some ([0], 0) :=
  c10_digit_free_is_zero ['-'] ['_', ' '] (by simp) (by decide)

/-- A value below twice the modulus wraps at most once. -/
theorem mod_two_cases (a m : Nat) (h0 : 0 < m) (h : a < 2 * m) :
    a % m = if a < m then a else a - m := by
  split
  · next hlt => exact Nat.mod_eq_of_lt hlt
  · next hge =>
    have hma : m ≤ a := Nat.le_of_not_lt hge
    rw [Nat.mod_eq_sub_mod hma, Nat.mod_eq_of_lt (by omega)]

/-- Pointwise-equal functions map a list equally. -/
theorem listMapCongr {α β : Type} (f g : α → β) :
    ∀ l : List α, (∀ a ∈ l, f a = g a) → l.map f = l.map g := by
  intro l
  induction l with
  | nil => intro _; rfl
  | cons a t ih =>
    intro h
    simp only [List.map_cons, h a (by simp)]
    rw [ih fun x hx => h x (by simp [hx])]

/-- A send on an open, non-full channel succeeds and moves to `sendState`. -/
theorem channel_send_ok {α : Type} (c : Channel α) (x : α) (b : Bool)
    (hcl : c.closed = false) (hct : c.count ≠ c.capacity) :
    channel_send c x b = (SendResult.ok, sendState c x) := by
  unfold channel_send sendState
  rw [hcl]
  simp [hct]

/-- `sendState` preserves well-formedness. -/
theorem sendState_wf {α : Type} (c : Channel α) (x : α)
    (hwf : chanWF c) (hct : c.count < c.capacity) : chanWF (sendState c x) := by
  obtain ⟨hcap, hhead, hcnt, htail⟩ := hwf
  refine ⟨hcap, hhead, ?_, ?_⟩
  · show c.count + 1 ≤ c.capacity
    omega
  · show (c.tail + 1) % c.capacity = (c.head + (c.count + 1)) % c.capacity
    rw [htail, Nat.mod_add_mod]
    congr 1

/-- `sendState` appends the item to the queue abstraction. -/
theorem sendState_items {α : Type} (c : Channel α) (x : α)
    (hwf : chanWF c) (hct : c.count < c.capacity) :
    chanItems (sendState c x) = chanItems c ++ [x] := by
  obtain ⟨hcap, hhead, hcnt, htail⟩ := hwf
  show (List.range (c.count + 1)).map
      (fun i => (if (c.head + i) % c.capacity = c.tail then x
                 else c.buffer ((c.head + i) % c.capacity))) =
    chanItems c ++ [x]
  rw [List.range_succ, List.map_append]
  congr 1
  · refine listMapCongr _ _ _ fun i hi => ?_
    have hilt : i < c.count := List.mem_range.mp hi
    have hne : (c.head + i) % c.capacity ≠ c.tail := by
      rw [htail,
        mod_two_cases (c.head + i) c.capacity hcap (by omega),
        mod_two_cases (c.head + c.count) c.capacity hcap (by omega)]
      split_ifs <;> omega
    simp only [hne, if_false]
  · have htl : (c.head + c.count) % c.capacity = c.tail := htail.symm
    simp [htl]

/-- A receive on a non-empty channel returns the head item and moves to
`recvState`. -/
theorem channel_recv_ok {α : Type} [Inhabited α] (c : Channel α) (b : Bool)
    (hct : c.count ≠ 0) :
    channel_recv c b = (RecvResult.ok (c.buffer c.head), recvState c) := by
  unfold channel_recv recvState
  simp [hct]

/-- `recvState` preserves well-formedness. -/
theorem recvState_wf {α : Type} [Inhabited α] (c : Channel α)
    (hwf : chanWF c) (hct : 0 < c.count) : chanWF (recvState c) := by
  obtain ⟨hcap, hhead, hcnt, htail⟩ := hwf
  refine ⟨hcap, Nat.mod_lt (c.head + 1) hcap, ?_, ?_⟩
  · show c.count - 1 ≤ c.capacity
    omega
  · show c.tail = ((c.head + 1) % c.capacity + (c.count - 1)) % c.capacity
    rw [htail, Nat.mod_add_mod]
    congr 1
    omega

/-- `recvState` removes the head of the queue abstraction. -/
theorem recvState_items {α : Type} [Inhabited α] (c : Channel α)
    (hwf : chanWF c) (hct : 0 < c.count) :
    chanItems c = c.buffer c.head :: chanItems (recvState c) := by
  obtain ⟨hcap, hhead, hcnt, htail⟩ := hwf
  obtain ⟨k, hk⟩ : ∃ k, c.count = k + 1 := ⟨c.count - 1, by omega⟩
  show (List.range c.count).map (fun i => c.buffer ((c.head + i) % c.capacity)) =
    c.buffer c.head ::
      (List.range (recvState c).count).map
        (fun i => (recvState c).buffer (((recvState c).head + i) % (recvState c).capacity))
  have hcnt' : (recvState c).count = k := by
    show c.count - 1 = k
    omega
  rw [hk, List.range_succ_eq_map, List.map_cons, List.map_map, hcnt']
  congr 1
  · rw [Nat.add_zero, Nat.mod_eq_of_lt hhead]
  · refine listMapCongr _ _ _ fun i hi => ?_
    have hilt : i < k := List.mem_range.mp hi
    show c.buffer ((c.head + Nat.succ i) % c.capacity) =
      (recvState c).buffer (((recvState c).head + i) % (recvState c).capacity)
    show c.buffer ((c.head + Nat.succ i) % c.capacity) =
      (if ((c.head + 1) % c.capacity + i) % c.capacity = c.head then default
       else c.buffer (((c.head + 1) % c.capacity + i) % c.capacity))
    have hidx : ((c.head + 1) % c.capacity + i) % c.capacity =
        (c.head + Nat.succ i) % c.capacity := by
      rw [Nat.mod_add_mod]
      congr 1
      omega
    have hne : (c.head + Nat.succ i) % c.capacity ≠ c.head := by
      rw [mod_two_cases (c.head + Nat.succ i) c.capacity hcap (by omega)]
      split_ifs <;> omega
    rw [hidx, if_neg hne]

/-- One serialized channel call preserves the trace invariant. -/
theorem traceStep_inv {α : Type} [Inhabited α] (t : TraceState α) (op : ChanOp α)
    (h : traceInv t) : traceInv (traceStep t op) := by
  obtain ⟨hwf, hlist⟩ := h
  cases op with
  | send x b =>
    show traceInv (match channel_send t.chan x b with
      | (.ok, c') => { chan := c', sent := t.sent ++ [x], recvd := t.recvd }
      | (_, c') => { chan := c', sent := t.sent, recvd := t.recvd })
    cases hcl : t.chan.closed with
    | true =>
      have hsend : channel_send t.chan x b = (SendResult.closedErr, t.chan) := by
        simp [channel_send, hcl]
      rw [hsend]
      exact ⟨hwf, hlist⟩
    | false =>
      by_cases hfull : t.chan.count = t.chan.capacity
      · have hsend : channel_send t.chan x b =
            (if b then SendResult.wouldWait else SendResult.wouldBlock, t.chan) := by
          simp [channel_send, hcl, hfull]
        rw [hsend]
        cases b
        · exact ⟨hwf, hlist⟩
        · exact ⟨hwf, hlist⟩
      · rw [channel_send_ok t.chan x b hcl hfull]
        have hlt : t.chan.count < t.chan.capacity :=
          Nat.lt_of_le_of_ne hwf.2.2.1 hfull
        refine ⟨sendState_wf t.chan x hwf hlt, ?_⟩
        show t.sent ++ [x] = t.recvd ++ chanItems (sendState t.chan x)
        rw [sendState_items t.chan x hwf hlt, hlist, List.append_assoc]
  | recv b =>
    show traceInv (match channel_recv t.chan b with
      | (.ok item, c') => { chan := c', sent := t.sent, recvd := t.recvd ++ [item] }
      | (_, c') => { chan := c', sent := t.sent, recvd := t.recvd })
    by_cases hct : t.chan.count = 0
    · cases hcl : t.chan.closed with
      | true =>
        have hrecv : channel_recv t.chan b = (RecvResult.drained, t.chan) := by
          simp [channel_recv, hct, hcl]
        rw [hrecv]
        exact ⟨hwf, hlist⟩
      | false =>
        cases b with
        | true =>
          have hrecv : channel_recv t.chan true = (RecvResult.wouldWait, t.chan) := by
            simp [channel_recv, hct, hcl]
          rw [hrecv]
          exact ⟨hwf, hlist⟩
        | false =>
          have hrecv : channel_recv t.chan false = (RecvResult.wouldBlock, t.chan) := by
            simp [channel_recv, hct, hcl]
          rw [hrecv]
          exact ⟨hwf, hlist⟩
    · rw [channel_recv_ok t.chan b hct]
      have hpos : 0 < t.chan.count := Nat.pos_of_ne_zero hct
      refine ⟨recvState_wf t.chan hwf hpos, ?_⟩
      show t.sent = (t.recvd ++ [t.chan.buffer t.chan.head]) ++ chanItems (recvState t.chan)
      rw [hlist, recvState_items t.chan hwf hpos, List.append_assoc]
      rfl
  | close =>
    refine ⟨?_, ?_⟩
    · show chanWF (channel_close t.chan)
      exact hwf
    · show t.sent = t.recvd ++ chanItems (channel_close t.chan)
      exact hlist

/-- A whole serialized call sequence preserves the trace invariant. -/
theorem runTrace_inv {α : Type} [Inhabited α] (ops : List (ChanOp α)) (t : TraceState α)
    (h : traceInv t) : traceInv (runTrace t ops) := by
  induction ops generalizing t with
  | nil => exact h
  | cons op rest ih => exact ih (traceStep t op) (traceStep_inv t op h)

/-- C5: channel delivery is FIFO.  For any externally-serialized sequence
of channel calls starting from a freshly created channel, the item
returned by the `n`-th successful receive is the item accepted by the
`n`-th successful send. -/
theorem c5_channel_fifo {α : Type} [Inhabited α] (capacity : Nat) (c0 : Channel α)
    (h : channel_create α capacity = some c0) (ops : List (ChanOp α)) (n : Nat)
    (hn : n < (runTrace { chan := c0, sent := [], recvd := [] } ops).recvd.length) :
    (runTrace { chan := c0, sent := [], recvd := [] } ops).recvd.get? n =
      (runTrace { chan := c0, sent := [], recvd := [] } ops).sent.get? n := by
  have hinit : traceInv ({ chan := c0, sent := [], recvd := [] } : TraceState α) := by
    unfold channel_create at h
    by_cases hz : capacity = 0
    · rw [if_pos hz] at h
      exact absurd h (by simp)
    · rw [if_neg hz] at h
      have hc0 := Option.some.inj h
      constructor
      · rw [← hc0]
        exact ⟨Nat.pos_of_ne_zero hz, Nat.pos_of_ne_zero hz, Nat.zero_le _, by simp⟩
      · rw [← hc0]
        simp [chanItems]

  have hfin := runTrace_inv ops _ hinit
  rw [hfin.2, List.get?_append hn]

/-- C5 witness: capacity-2 channel, interleaved sends and receives with a
would-block refusal in between; the second received item is the second
sent item. -/
theorem c5_channel_fifo_witness :
    1 < (runTrace { chan := { buffer := fun _ => (0 : Nat), capacity := 2, head := 0,
                              tail := 0, count := 0, closed := false },
                    sent := [], recvd := [] }
          [ChanOp.send 10 true, ChanOp.send 20 true, ChanOp.send 99 false,
           ChanOp.recv true, ChanOp.send 30 true, ChanOp.recv true,
           ChanOp.recv true]).recvd.length ∧
    (runTrace { chan := { buffer := fun _ => (0 : Nat), capacity := 2, head := 0,
                          tail := 0, count := 0, closed := false },
                sent := [], recvd := [] }
      [ChanOp.send 10 true, ChanOp.send 20 true, ChanOp.send 99 false,
       ChanOp.recv true, ChanOp.send 30 true, ChanOp.recv true,
       ChanOp.recv true]).recvd.get? 1 =
    (runTrace { chan := { buffer := fun _ => (0 : Nat), capacity := 2, head := 0,
                          tail := 0, count := 0, closed := false },
                sent := [], recvd := [] }
      [ChanOp.send 10 true, ChanOp.send 20 true, ChanOp.send 99 false,
       ChanOp.recv true, ChanOp.send 30 true, ChanOp.recv true,
       ChanOp.recv true]).sent.get? 1 := by
  constructor
  · decide
  · exact c5_channel_fifo 2
      { buffer := fun _ => (0 : Nat), capacity := 2, head := 0,
        tail := 0, count := 0, closed := false }
      rfl
      [ChanOp.send 10 true, ChanOp.send 20 true, ChanOp.send 99 false,
       ChanOp.recv true, ChanOp.send 30 true, ChanOp.recv true,
       ChanOp.recv true]
      1 (by decide)

end Trion
